import Mathlib

/-!
Verification of the hospital-price-transparency scraper against its
specification.  The Python source is shallowly embedded: pandas DataFrames
become lists of association-list rows over a `Cell` value type, prices are
exact rationals, and each pipeline stage of `CPTNormalizer.normalize`
(src/normalizers/cpt_normalizer.py) is a named Lean function.  Further
sections embed the CMS JSON extractor's `parse_data`, the CSV extractor's
header-skip decision, the retrying HTTP client, the scraper registry
dispatch, the scrape workflow result, and the orchestrator's per-hospital
timeout handling.
-/

/-! ### String helpers

Python string operations (`lower`, `upper`, `strip`, `replace`, substring
containment) are modelled on `List Char` so that every definition reduces in
the kernel. -/

/-- ASCII lowercasing of one character, as Python `str.lower` acts on the
ASCII range used by this data. -/
def asciiLower (c : Char) : Char :=
  if 'A' ≤ c ∧ c ≤ 'Z' then Char.ofNat (c.toNat + 32) else c

/-- ASCII uppercasing of one character. -/
def asciiUpper (c : Char) : Char :=
  if 'a' ≤ c ∧ c ≤ 'z' then Char.ofNat (c.toNat - 32) else c

/-- Python `s.lower()`. -/
def strLower (s : String) : String := String.mk (s.data.map asciiLower)

/-- Python `s.upper()`. -/
def strUpper (s : String) : String := String.mk (s.data.map asciiUpper)

/-- Python `s.strip()`: drop whitespace from both ends. -/
def strStrip (s : String) : String :=
  String.mk (((s.data.dropWhile Char.isWhitespace).reverse.dropWhile
      Char.isWhitespace).reverse)

/-- One left-to-right, non-overlapping replacement pass over a character
list, with fuel bounding the number of steps (Python `str.replace`). -/
def replaceChars (pat rep : List Char) : Nat → List Char → List Char
  | 0, l => l
  | _ + 1, [] => []
  | fuel + 1, c :: cs =>
    if pat ≠ [] ∧ pat.isPrefixOf (c :: cs) then
      rep ++ replaceChars pat rep fuel ((c :: cs).drop pat.length)
    else
      c :: replaceChars pat rep fuel cs

/-- Python `s.replace(pat, rep)` (for the non-empty patterns the source
uses). -/
def strReplace (s pat rep : String) : String :=
  String.mk (replaceChars pat.data rep.data s.data.length s.data)

/-- Substring containment on character lists. -/
def charsContain (hay pat : List Char) : Bool :=
  (List.range (hay.length + 1)).any (fun i => pat.isPrefixOf (hay.drop i))

/-- Python `pat in s`. -/
def strContains (s pat : String) : Bool := charsContain s.data pat.data

/-- `re.search(a ".*" b, s)`: an occurrence of `a` followed (disjointly)
by an occurrence of `b`. -/
def strContainsSeq (s a b : String) : Bool :=
  (List.range (s.data.length + 1)).any (fun i =>
    a.data.isPrefixOf (s.data.drop i) ∧
      charsContain (s.data.drop (i + a.data.length)) b.data)

/-- Python `s.split("\n")[0]`: the text before the first newline. -/
def firstLineOf (s : String) : String :=
  String.mk (s.data.takeWhile (fun c => c ≠ '\n'))

/-- Value of digit characters, most significant first. -/
def digitsToNat (ds : List Char) : Nat :=
  ds.foldl (fun a c => a * 10 + (c.toNat - '0'.toNat)) 0

/-- Python `float(s)` on finite decimal literals
(`[+-]?digits[.digits][(e|E)[+-]digits]`), returning `none` when the text
does not parse.  Non-finite literals (`inf`, `nan`) and underscore
separators are outside this model; the pipeline drops both a parse failure
and a NaN on the same later steps. -/
def pyFloatParse (s : String) : Option ℚ :=
  let cs := s.data
  let sgn : ℤ × List Char :=
    match cs with
    | '+' :: r => (1, r)
    | '-' :: r => (-1, r)
    | r => (1, r)
  let d1 := sgn.2.takeWhile Char.isDigit
  let rest1 := sgn.2.dropWhile Char.isDigit
  let frac : List Char × List Char :=
    match rest1 with
    | '.' :: r => (r.takeWhile Char.isDigit, r.dropWhile Char.isDigit)
    | r => ([], r)
  let d2 := frac.1
  if d1.isEmpty ∧ d2.isEmpty then none
  else
    let mant : ℚ := (sgn.1 : ℚ) * (digitsToNat (d1 ++ d2) : ℚ) / ((10 : ℚ) ^ d2.length)
    match frac.2 with
    | [] => some mant
    | 'e' :: r =>
      let esgn : ℤ × List Char :=
        match r with
        | '+' :: r2 => (1, r2)
        | '-' :: r2 => (-1, r2)
        | r2 => (1, r2)
      let d3 := esgn.2.takeWhile Char.isDigit
      if d3.isEmpty ∨ ¬ (esgn.2.dropWhile Char.isDigit).isEmpty then none
      else some (mant * (10 : ℚ) ^ (esgn.1 * (digitsToNat d3 : ℤ)))
    | 'E' :: r =>
      let esgn : ℤ × List Char :=
        match r with
        | '+' :: r2 => (1, r2)
        | '-' :: r2 => (-1, r2)
        | r2 => (1, r2)
      let d3 := esgn.2.takeWhile Char.isDigit
      if d3.isEmpty ∨ ¬ (esgn.2.dropWhile Char.isDigit).isEmpty then none
      else some (mant * (10 : ℚ) ^ (esgn.1 * (digitsToNat d3 : ℤ)))
    | _ => none

/-- Left-pad a numeral with zeros to the given width. -/
def leftPadZeros (s : String) (n : Nat) : String :=
  String.mk (List.replicate (n - s.data.length) '0' ++ s.data)

/-- Decimal rendering of a rational that terminates in base 10, used to
model Python `str(float)`; floats produced by this pipeline are parsed
finite decimals, so the search always succeeds on reachable values. -/
def floatRepr (q : ℚ) : String :=
  match (List.range 41).find? (fun k => decide ((q.den : ℤ) ∣ (10 : ℤ) ^ k)) with
  | some k =>
    let k1 := max k 1
    let m := (q.num * 10 ^ k1 / (q.den : ℤ)).natAbs
    (if q < 0 then "-" else "") ++ toString (m / 10 ^ k1) ++ "." ++
      leftPadZeros (toString (m % 10 ^ k1)) k1
  | none => toString q.num ++ "/" ++ toString q.den

/-! ### Cells and tables

A pandas cell is `NaN`, a string, an int, or a float (modelled exactly by a
rational).  A DataFrame is a column list plus rows of `(column, cell)`
pairs. -/

/-- One DataFrame cell. -/
inductive Cell where
  | null
  | str (s : String)
  | int (n : ℤ)
  | float (q : ℚ)
deriving DecidableEq

/-- `pd.isna`. -/
def cellIsNa : Cell → Bool
  | .null => true
  | _ => false

/-- Python `str(x)` on a cell (`NaN` stringifies to `"nan"` under
`astype(str)`). -/
def cellPyStr : Cell → String
  | .null => "nan"
  | .str s => s
  | .int n => toString n
  | .float q => floatRepr q

/-- One DataFrame row as an association list from column name to cell. -/
abbrev Row := List (String × Cell)

/-- A DataFrame: column names plus rows. -/
structure Table where
  cols : List String
  rows : List Row
deriving DecidableEq

/-- Read one cell of a row. -/
def rowGet (r : Row) (c : String) : Cell :=
  match r.find? (fun p => p.1 == c) with
  | some p => p.2
  | none => .null

/-- `df[c] = v` on one row: overwrite or append the column. -/
def rowSet (r : Row) (c : String) (v : Cell) : Row :=
  if r.any (fun p => p.1 == c) then
    r.map (fun p => if p.1 == c then (c, v) else p)
  else r ++ [(c, v)]

/-- `df[c] = ...` on the column list. -/
def addCol (cols : List String) (c : String) : List String :=
  if c ∈ cols then cols else cols ++ [c]

/-! ### CPTNormalizer (src/normalizers/cpt_normalizer.py) -/

/-- `CPTNormalizer.strip_leading_zero`: drop one leading zero from
six-character codes. -/
def stripLeadingZero (code : String) : String :=
  let c := strStrip code
  if c.length = 6 ∧ c.data.head? = some '0' then String.mk (c.data.drop 1) else c

/-- `CPTNormalizer.clean_price`: strip `$` and `,` from strings and parse;
ints and floats pass through; `NaN` and parse failures yield null. -/
def cleanPrice : Cell → Option ℚ
  | .null => none
  | .int n => some (n : ℚ)
  | .float q => some q
  | .str s => pyFloatParse (strStrip (strReplace (strReplace s "," "") "$" ""))

/-- `^[0-9A-Z]{5}$` (the `CPT_PATTERN` check). -/
def isValidCPT (s : String) : Bool :=
  s.data.length = 5 ∧ s.data.all (fun c => c.isDigit ∨ ('A' ≤ c ∧ c ≤ 'Z'))

/-- The vocabularies kept by the normalizer after lowercasing. -/
def VALID_VOCABS : List String := ["cpt", "cpt4", "hcpcs"]

/-- The required input columns of `CPTNormalizer.normalize`. -/
def REQUIRED : List String := ["vocabulary_id", "concept_code", "gross", "cash"]

/-- A row after the normalizer's cleaning steps: lowercased vocabulary,
cleaned code, parsed prices. -/
structure CRow where
  vocab : String
  code : String
  gross : Option ℚ
  cash : Option ℚ
deriving DecidableEq

/-- The normalizer's cleaning of one input row (code cleaning, price
cleaning, vocabulary lowercasing). -/
def cleanRow (r : Row) : CRow :=
  { vocab := strLower (cellPyStr (rowGet r "vocabulary_id"))
    code :=
      let c := rowGet r "concept_code"
      if cellIsNa c then "" else stripLeadingZero (strStrip (cellPyStr c))
    gross := cleanPrice (rowGet r "gross")
    cash := cleanPrice (rowGet r "cash") }

/-- Cleaning followed by the vocabulary filter and (when the Athena
vocabulary is loaded) the inner join on `concept_code`; pandas' inner merge
keeps the left row order, so it is a filter. -/
def filteredOfRows (concepts : List String) (rows : List Row) : List CRow :=
  let v := (rows.map cleanRow).filter (fun r => decide (r.vocab ∈ VALID_VOCABS))
  if concepts.isEmpty then v else v.filter (fun r => decide (r.code ∈ concepts))

/-- Lexicographic order on `(vocabulary_id, concept_code)` keys, the order
`groupby(sort=True)` emits groups in. -/
def pairLe (a b : String × String) : Prop :=
  a.1 < b.1 ∨ (a.1 = b.1 ∧ a.2 ≤ b.2)

instance : DecidableRel pairLe := fun a b => by
  unfold pairLe; infer_instance

instance : IsTotal (String × String) pairLe := by
  constructor
  intro a b
  rcases lt_trichotomy a.1 b.1 with h | h | h
  · exact Or.inl (Or.inl h)
  · rcases le_total a.2 b.2 with h2 | h2
    · exact Or.inl (Or.inr ⟨h, h2⟩)
    · exact Or.inr (Or.inr ⟨h.symm, h2⟩)
  · exact Or.inr (Or.inl h)

instance : IsTrans (String × String) pairLe := by
  constructor
  intro a b c hab hbc
  rcases hab with h1 | ⟨e1, l1⟩
  · rcases hbc with h2 | ⟨e2, _⟩
    · exact Or.inl (h1.trans h2)
    · exact Or.inl (e2 ▸ h1)
  · rcases hbc with h2 | ⟨e2, l2⟩
    · exact Or.inl (e1 ▸ h2)
    · exact Or.inr ⟨e1.trans e2, l1.trans l2⟩

/-- `drop_duplicates` / Python set-guarded append: keep the first
occurrence of each element. -/
def pdDedupGo {α : Type} [DecidableEq α] (seen : List α) : List α → List α
  | [] => []
  | x :: xs =>
    if x ∈ seen then pdDedupGo seen xs else x :: pdDedupGo (x :: seen) xs

/-- Order-preserving de-duplication keeping first occurrences. -/
def pdDedup {α : Type} [DecidableEq α] (l : List α) : List α := pdDedupGo [] l

/-- Group keys of `groupby(["vocabulary_id","concept_code"], sort=True)`:
distinct keys in ascending order. -/
def groupKeysOf (filtered : List CRow) : List (String × String) :=
  List.insertionSort pairLe (pdDedup (filtered.map (fun r => (r.vocab, r.code))))

/-- One aggregated group row (`.max()` with pandas' NaN skipping). -/
structure GRow where
  vocab : String
  code : String
  cash : Option ℚ
  gross : Option ℚ
deriving DecidableEq

/-- Maximum of the present values, `none` when all are missing. -/
def maxOptList (xs : List (Option ℚ)) : Option ℚ :=
  xs.foldl
    (fun acc x =>
      match acc, x with
      | none, x => x
      | some a, none => some a
      | some a, some b => some (max a b))
    none

/-- The aggregated row for one group key. -/
def mkGroup (filtered : List CRow) (k : String × String) : GRow :=
  { vocab := k.1
    code := k.2
    cash := maxOptList ((filtered.filter (fun r => decide ((r.vocab, r.code) = k))).map (fun r => r.cash))
    gross := maxOptList ((filtered.filter (fun r => decide ((r.vocab, r.code) = k))).map (fun r => r.gross)) }

/-- `groupby([...])[["cash","gross"]].max().reset_index()`. -/
def groupedOf (filtered : List CRow) : List GRow :=
  (groupKeysOf filtered).map (mkGroup filtered)

/-- A melted row before the price is known to be present. -/
structure MRow where
  cpt : String
  mtype : String
  price : Option ℚ
deriving DecidableEq

/-- `pd.melt(id_vars="concept_code", value_vars=["cash","gross"])`: all
cash rows in group order, then all gross rows. -/
def meltedOf (g : List GRow) : List MRow :=
  g.map (fun x => { cpt := x.code, mtype := "cash", price := x.cash }) ++
    g.map (fun x => { cpt := x.code, mtype := "gross", price := x.gross })

/-- Round half to even on integers scaled by 100 (numpy rounding). -/
def rhe (q : ℚ) : ℤ :=
  let f := ⌊q⌋
  let r := q - (f : ℚ)
  if r < 1 / 2 then f else if 1 / 2 < r then f + 1 else if f % 2 = 0 then f else f + 1

/-- `.round(2)` on an exact decimal model of float64. -/
def round2 (q : ℚ) : ℚ := ((rhe (q * 100) : ℤ) : ℚ) / 100

/-- One output row of the normalizer. -/
structure OutRow where
  cpt : String
  rtype : String
  price : ℚ
deriving DecidableEq

/-- The `(cpt, type)` key of an output row. -/
def outKey (r : OutRow) : String × String := (r.cpt, r.rtype)

/-- `sort_values(["cpt","type"])` order on output rows. -/
def rowLe (a b : OutRow) : Prop :=
  a.cpt < b.cpt ∨ (a.cpt = b.cpt ∧ a.rtype ≤ b.rtype)

instance : DecidableRel rowLe := fun a b => by
  unfold rowLe; infer_instance

instance : IsTotal OutRow rowLe := by
  constructor
  intro a b
  rcases lt_trichotomy a.cpt b.cpt with h | h | h
  · exact Or.inl (Or.inl h)
  · rcases le_total a.rtype b.rtype with h2 | h2
    · exact Or.inl (Or.inr ⟨h, h2⟩)
    · exact Or.inr (Or.inr ⟨h.symm, h2⟩)
  · exact Or.inr (Or.inl h)

instance : IsTrans OutRow rowLe := by
  constructor
  intro a b c hab hbc
  rcases hab with h1 | ⟨e1, l1⟩
  · rcases hbc with h2 | ⟨e2, _⟩
    · exact Or.inl (h1.trans h2)
    · exact Or.inl (e2 ▸ h1)
  · rcases hbc with h2 | ⟨e2, l2⟩
    · exact Or.inl (e1 ▸ h2)
    · exact Or.inr ⟨e1.trans e2, l1.trans l2⟩

/-- Melt both value columns, then `drop_duplicates`. -/
def dedupedRows (concepts : List String) (rows : List Row) : List MRow :=
  pdDedup (meltedOf (groupedOf (filteredOfRows concepts rows)))

/-- `dropna(subset=["price"])` then the `price > 0` filter. -/
def positiveRows (concepts : List String) (rows : List Row) : List MRow :=
  ((dedupedRows concepts rows).filter (fun r => r.price.isSome)).filter
    (fun r => decide (0 < r.price.getD 0))

/-- `.round(2)`; every row here has a present price, so `getD` reads it. -/
def roundedRows (concepts : List String) (rows : List Row) : List OutRow :=
  (positiveRows concepts rows).map
    (fun r => { cpt := r.cpt, rtype := r.mtype, price := round2 (r.price.getD 0) })

/-- Sort by `(cpt, type)` and apply the final `CPT_PATTERN` filter. -/
def normPipeline (concepts : List String) (rows : List Row) : List OutRow :=
  (List.insertionSort rowLe (roundedRows concepts rows)).filter
    (fun r => isValidCPT r.cpt)

/-- Errors `CPTNormalizer.normalize` can raise. -/
inductive NormError where
  | missingColumns (cols : List String)
  | keyError (col : String)
deriving DecidableEq

/-- The `rename=True` branch: copy the gross/cash columns, clean the code
column into `concept_code`, and set `vocabulary_id` to `"cpt"`; a missing
source column raises `KeyError`. -/
def applyRename (grossCol cashCol cptCol : String) (t : Table) : Except NormError Table :=
  if grossCol ∈ t.cols then
    if cashCol ∈ t.cols then
      if cptCol ∈ t.cols then
        .ok
          { cols := addCol (addCol (addCol (addCol t.cols "gross") "cash") "concept_code") "vocabulary_id"
            rows := t.rows.map (fun r =>
              let r1 := rowSet r "gross" (rowGet r grossCol)
              let r2 := rowSet r1 "cash" (rowGet r1 cashCol)
              let r3 := rowSet r2 "concept_code"
                (.str (stripLeadingZero (strStrip (cellPyStr (rowGet r2 cptCol)))))
              rowSet r3 "vocabulary_id" (.str "cpt")) }
      else .error (.keyError cptCol)
    else .error (.keyError cashCol)
  else .error (.keyError grossCol)

/-- `CPTNormalizer.normalize` as a row list: optional rename, required
column check, then the cleaning/filter/group/melt/round/sort pipeline. -/
def normalizeRows (concepts : List String) (renameArgs : Option (String × String × String))
    (t : Table) : Except NormError (List OutRow) :=
  match (match renameArgs with
         | none => Except.ok t
         | some (g, c, k) => applyRename g c k t : Except NormError Table) with
  | .error e => .error e
  | .ok t1 =>
    let missing := REQUIRED.filter (fun c => decide (c ∉ t1.cols))
    if missing.isEmpty then .ok (normPipeline concepts t1.rows)
    else .error (.missingColumns missing)

/-- The output rows as a DataFrame with the output schema. -/
def outTable (rs : List OutRow) : Table :=
  { cols := ["cpt", "type", "price"]
    rows := rs.map (fun r => [("cpt", Cell.str r.cpt), ("type", Cell.str r.rtype),
      ("price", Cell.float r.price)]) }

/-- `CPTNormalizer.normalize` at the DataFrame level (named `normalizeDF`
because `normalize` already exists in Mathlib's root namespace). -/
def normalizeDF (concepts : List String) (renameArgs : Option (String × String × String))
    (t : Table) : Except NormError Table :=
  (normalizeRows concepts renameArgs t).map outTable

deriving instance DecidableEq for Except

/-! ### Scrape results and the scrape workflow (src/models.py, src/scrapers/base.py) -/

/-- `ScrapeStatus` (the `WIP` member is unused by the workflow). -/
inductive ScrapeStatusM where
  | success
  | failure
  | skipped
deriving DecidableEq

/-- The fields of `ScrapeResult` the claims observe. -/
structure ScrapeResultM where
  status : ScrapeStatusM
  records : Option ℕ
  errorType : Option String
  errorMessage : Option String
deriving DecidableEq

/-- `ScrapeResult.failure`: status FAILURE with the exception's class name
and message. -/
def failureResult (errType errMsg : String) : ScrapeResultM :=
  { status := .failure, records := none, errorType := some errType,
    errorMessage := some errMsg }

/-- `ScrapeResult.skipped`: status SKIPPED with the reason as message. -/
def skippedResult (reason : String) : ScrapeResultM :=
  { status := .skipped, records := none, errorType := none,
    errorMessage := some reason }

/-- The Python exception class name of a normalizer error. -/
def normErrorName : NormError → String
  | .missingColumns _ => "ValueError"
  | .keyError _ => "KeyError"

/-- `PriceRecord` validation in `BaseScraper._save_jsonl`: strip+uppercase
the code, require the CPT pattern, a gross/cash type and `price ≥ 0`. -/
def validPriceRecords (rs : List OutRow) : List OutRow :=
  rs.filterMap (fun r =>
    let c := strUpper (strStrip r.cpt)
    if isValidCPT c ∧ (r.rtype = "gross" ∨ r.rtype = "cash") ∧ 0 ≤ r.price then
      some { cpt := c, rtype := r.rtype, price := r.price }
    else none)

/-- `BaseScraper.scrape` from the parsed table onward: normalize, save
(`_save_jsonl` writes a file only when some record validates), and return a
SUCCESS result carrying `len(normalized)`; a raised error becomes a FAILURE
result.  The second component records whether an output file was written. -/
def scrapeFromParsed (concepts : List String) (t : Table) : ScrapeResultM × Bool :=
  match normalizeRows concepts none t with
  | .ok rs =>
    ({ status := .success, records := some rs.length, errorType := none,
       errorMessage := none }, !(validPriceRecords rs).isEmpty)
  | .error e => (failureResult (normErrorName e) "normalize failed", false)

/-! ### RetryHTTPClient (src/utils/http_client.py)

`get` is wrapped in `tenacity.retry(retry_if_exception_type(RetryableHTTPError),
stop_after_attempt(3), wait_exponential(multiplier=2, min=1, max=30),
reraise=True)`.  One HTTP attempt is abstracted by its observable outcome. -/

/-- What one underlying `session.get` does. -/
inductive Attempt where
  | status (code : ℕ)
  | timeout
  | connError
  | otherReqError
deriving DecidableEq

/-- `RetryHTTPClient._should_retry`: 429 or any 5xx. -/
def shouldRetry (code : ℕ) : Bool :=
  code == 429 || (500 ≤ code && code < 600)

/-- Classification of one `_make_request` call. -/
inductive ReqOutcome where
  | response (code : ℕ)
  | retryableStatus (code : ℕ)
  | retryableNet
  | permanent (code : ℕ)
  | plainError
deriving DecidableEq

/-- `RetryHTTPClient._make_request`: return the response on 200, raise
`RetryableHTTPError` on retryable statuses / timeouts / connection errors,
`PermanentHTTPError` on other statuses, plain `HTTPError` otherwise. -/
def makeRequest : Attempt → ReqOutcome
  | .status c =>
    if c = 200 then .response c
    else if shouldRetry c then .retryableStatus c
    else .permanent c
  | .timeout => .retryableNet
  | .connError => .retryableNet
  | .otherReqError => .plainError

/-- Outcomes tenacity retries (`retry_if_exception_type(RetryableHTTPError)`). -/
def isRetryable : ReqOutcome → Bool
  | .retryableStatus _ => true
  | .retryableNet => true
  | _ => false

/-- `wait_exponential(multiplier=2, min=1, max=30)` before attempt `n + 1`. -/
def waitExp (n : ℕ) : ℚ :=
  max 1 (min ((2 : ℚ) * 2 ^ (n - 1)) 30)

/-- The observable trace of one `RetryHTTPClient.get` call. -/
structure GetTrace where
  result : ReqOutcome
  attempts : ℕ
  waits : List ℚ
deriving DecidableEq

/-- `RetryHTTPClient.get` driven by the per-attempt behaviors
`outcomes 1`, `outcomes 2`, `outcomes 3`: the tenacity loop unrolled at its
`stop_after_attempt(3)` bound.  A retry happens only after a retryable
outcome, waiting `waitExp n` after attempt `n`; the final attempt's
outcome is re-raised (`reraise=True`). -/
def getRun (outcomes : ℕ → Attempt) : GetTrace :=
  let r1 := makeRequest (outcomes 1)
  if isRetryable r1 then
    let r2 := makeRequest (outcomes 2)
    if isRetryable r2 then
      { result := makeRequest (outcomes 3), attempts := 3, waits := [waitExp 1, waitExp 2] }
    else { result := r2, attempts := 2, waits := [waitExp 1] }
  else { result := r1, attempts := 1, waits := [] }

/-! ### Orchestrator timeout handling (scripts/scrape.py) -/

/-- Abstract behavior of one worker child process. -/
structure ChildBehavior where
  finishesInTime : Bool
  queued : Option ScrapeResultM
  diesOnTerminate : Bool
deriving DecidableEq

/-- Process-control calls the parent makes, in order. -/
inductive ProcAction where
  | join (secs : ℕ)
  | terminate
  | kill
deriving DecidableEq

/-- `_process_hospital_with_timeout`: join with the timeout; if the child
is still alive, terminate with a 5 s grace join, then (if it survived) kill
with a 2 s grace join and report a `TimeoutError` failure; if the child
exited but the queue is empty, synthesize a "Worker process crashed"
failure; otherwise return the queued result. -/
def processWithTimeout (timeout : ℕ) (b : ChildBehavior) :
    List ProcAction × ScrapeResultM :=
  if b.finishesInTime then
    match b.queued with
    | some r => ([.join timeout], r)
    | none => ([.join timeout], failureResult "RuntimeError" "Worker process crashed")
  else
    ([.join timeout, .terminate, .join 5] ++
        (if b.diesOnTerminate then [] else [.kill, .join 2]),
      failureResult "TimeoutError"
        ("Killed after " ++ toString timeout ++ "s timeout"))

/-! ### Scraper registry (src/scrapers/registry.py) and format detection
(src/config.py) -/

/-- The scraper classes the registry can select. -/
inductive Extr where
  | cmsCSV
  | cmsJSON
  | cmsXLSX
  | cmsZIP
  | hyveJSON
  | tennovaCSV
deriving DecidableEq

/-- `DataFormat`. -/
inductive DFormat where
  | CSV
  | JSON
  | XLSX
  | XML
  | ZIP
deriving DecidableEq

/-- A URL pattern entry: a plain substring, or one of the regex shapes
`a.*b` and `(a1|a2).*b` that appear in the table (escaped dots are literal;
regexes without wildcards behave as substring searches). -/
inductive UPat where
  | substr (s : String)
  | follows (a b : String)
  | followsAlt (a1 a2 b : String)
deriving DecidableEq

/-- Case-insensitive match of a pattern against a URL (the registry
lowercases the URL before matching). -/
def upatMatch (url : String) (p : UPat) : Bool :=
  let u := strLower url
  match p with
  | .substr s => strContains u s
  | .follows a b => strContainsSeq u a b
  | .followsAlt a1 a2 b => strContainsSeq u a1 b || strContainsSeq u a2 b

/-- `ScraperRegistry.URL_PROVIDER_SCRAPERS`, in order. -/
def URL_PROVIDER_SCRAPERS : List (UPat × Extr) :=
  [(.follows "claraprice.net" "machine-readable", .cmsJSON),
   (.substr "craneware.com/api-pricing-transparency", .cmsCSV),
   (.substr "sthpiprd.blob.core.windows.net", .cmsCSV),
   (.substr "pricetransparency.accureg.net", .cmsCSV),
   (.substr "uhsfilecdn.eskycity.net", .cmsCSV),
   (.substr "encompasshealth.com", .cmsCSV),
   (.substr "edge.sitecorecloud.io/encompasshee", .cmsCSV),
   (.substr "resources.selectmedical.com", .cmsCSV),
   (.substr "panaceainc.com", .cmsZIP),
   (.followsAlt "sunbehavioral.com" "sundelaware.com" ".xlsx", .cmsXLSX),
   (.substr "www.hcadam.com/api/public/content", .cmsJSON),
   (.substr "machine-readable-files.com", .cmsCSV),
   (.substr "centaurihs.com/ptapp/api/cdm/export", .cmsCSV),
   (.substr "res.cloudinary.com/dpmykpsih", .cmsCSV),
   (.substr "apps.para-hcfs.com", .cmsCSV),
   (.substr "hospitalpricedisclosure.com", .cmsJSON),
   (.substr "drive.google.com", .cmsCSV)]

/-- `ScraperRegistry.SCRAPER_TYPES`. -/
def SCRAPER_TYPES : List (String × Extr) :=
  [("CMSStandardJSONScraper", .cmsJSON),
   ("CMSStandardCSVScraper", .cmsCSV),
   ("CMSStandardXLSXScraper", .cmsXLSX),
   ("CMSStandardZIPScraper", .cmsZIP),
   ("HyveCMSJSONScraper", .hyveJSON),
   ("TennovaCMSCSVScraper", .tennovaCSV)]

/-- `ScraperRegistry.CCN_SCRAPERS` (empty by default). -/
def CCN_SCRAPERS : List (String × Extr) := []

/-- `ScraperRegistry.IDN_SCRAPERS`. -/
def IDN_SCRAPERS : List (String × Extr) :=
  [("Covenant Health", .hyveJSON),
   ("Memorial", .cmsJSON),
   ("Tennova Healthcare", .tennovaCSV),
   ("Parkridge", .cmsJSON),
   ("Mission Health", .cmsJSON)]

/-- `ScraperRegistry.FORMAT_SCRAPERS` (no entry for XML). -/
def FORMAT_SCRAPERS : List (DFormat × Extr) :=
  [(.CSV, .cmsCSV), (.JSON, .cmsJSON), (.XLSX, .cmsXLSX), (.ZIP, .cmsZIP)]

/-- First value whose key matches. -/
def lookupTable {κ α : Type} [DecidableEq κ] (tbl : List (κ × α)) (k : κ) : Option α :=
  match tbl.find? (fun p => decide (p.1 = k)) with
  | some p => some p.2
  | none => none

/-- `ScraperRegistry._get_url_provider_scraper`: first matching pattern. -/
def urlProviderScraper (fileUrl : String) : Option Extr :=
  if fileUrl = "" then none
  else
    match URL_PROVIDER_SCRAPERS.find? (fun p => upatMatch fileUrl p.1) with
    | some p => some p.2
    | none => none

/-- The registry's view of a hospital record. -/
structure HospitalRec where
  scraperType : Option String
  ccn : Option String
  fileUrl : String
  idn : String
  dtype : Option DFormat
deriving DecidableEq

/-- `ScraperRegistry.get_scraper_class`: explicit type (ignored when the
name is unknown), CCN override, URL provider pattern, IDN table, then the
format fallback. -/
def getScraperClass (r : HospitalRec) : Option Extr :=
  match r.scraperType.bind (lookupTable SCRAPER_TYPES) with
  | some e => some e
  | none =>
    match r.ccn.bind (lookupTable CCN_SCRAPERS) with
    | some e => some e
    | none =>
      match urlProviderScraper r.fileUrl with
      | some e => some e
      | none =>
        match (if r.idn ≠ "" then lookupTable IDN_SCRAPERS r.idn else none) with
        | some e => some e
        | none => r.dtype.bind (lookupTable FORMAT_SCRAPERS)

/-- The five dispatch rules in the order the spec lists them. -/
def dispatchRules (r : HospitalRec) : List (Option Extr) :=
  [r.scraperType.bind (lookupTable SCRAPER_TYPES),
   r.ccn.bind (lookupTable CCN_SCRAPERS),
   urlProviderScraper r.fileUrl,
   (if r.idn ≠ "" then lookupTable IDN_SCRAPERS r.idn else none),
   r.dtype.bind (lookupTable FORMAT_SCRAPERS)]

/-- Modelled from the spec: `select_extractor` as a flat first-match over
the ordered rule list, for comparison with `getScraperClass`. -/
def specSelectExtractor (r : HospitalRec) : Option Extr :=
  (dispatchRules r).findSome? id

/-- `_detect_format_from_url` (src/config.py): extension checks first,
then known provider patterns, else unknown. -/
def detectFormatFromUrl (url : String) : Option DFormat :=
  let u := strLower url
  if strContains u ".json" then some .JSON
  else if strContains u ".csv" then some .CSV
  else if strContains u ".xlsx" || strContains u ".xls" then some .XLSX
  else if strContains u ".xml" then some .XML
  else if strContains u ".zip" then some .ZIP
  else if strContains u "claraprice.net" && strContains u "machine-readable" then some .JSON
  else if strContains u "craneware.com/api-pricing-transparency" then some .CSV
  else if strContains u "panaceainc.com/mrfdownload" then some .ZIP
  else if strContains u "sthpiprd.blob.core.windows.net" then some .CSV
  else if strContains u "pricetransparency.accureg.net" then some .CSV
  else none

/-- `_worker_process` when the registry returns no scraper: a SKIPPED
result (reason "No scraper for format"), not a failure. -/
def workerDispatch (r : HospitalRec) : ScrapeResultM ⊕ Extr :=
  match getScraperClass r with
  | none => .inl (skippedResult "No scraper for format")
  | some e => .inr e

/-! ### CMS CSV header-skip decision (src/scrapers/cms_csv_scraper.py,
`parse_data` lines 392-407) -/

/-- The header-skip count chosen from the detected delimiter and the first
line: default 2 (CMS metadata rows), 0 for the pipe dialect, a
`service_code`/`hcpcs` header line, or a `description` header line without
`hospital_name`. -/
def skipCount (delim : Char) (rawData : String) : ℕ :=
  let firstLine := if rawData = "" then "" else strLower (firstLineOf rawData)
  if delim = '|' then 0
  else if strContains firstLine "service_code" || strContains firstLine "hcpcs" then 0
  else if !strContains firstLine "hospital_name" && strContains firstLine "description" then 0
  else 2

/-- The claim's reading of the header-skip rule (else-branch 0), for
comparison with `skipCount`. -/
def claimSkipCount (delim : Char) (firstLineLower : String) : ℕ :=
  if delim = '|' then 0
  else if strContains firstLineLower "service_code" || strContains firstLineLower "hcpcs" then 0
  else if strContains firstLineLower "hospital_name" then 2
  else 0

/-- The amended reading of the header-skip rule, for comparison with
`skipCount`. -/
def amendedSkipCount (delim : Char) (firstLineLower : String) : ℕ :=
  if delim = '|' then 0
  else if strContains firstLineLower "service_code" || strContains firstLineLower "hcpcs" then 0
  else if !strContains firstLineLower "hospital_name" && strContains firstLineLower "description" then 0
  else 2

/-! ### CMS JSON extractor (src/scrapers/cms_json_scraper.py) -/

/-- A decoded JSON value. -/
inductive JVal where
  | null
  | bool (b : Bool)
  | num (q : ℚ)
  | str (s : String)
  | arr (xs : List JVal)
  | obj (fields : List (String × JVal))

/-- Field lookup on a JSON object's field list. -/
def jGet (fields : List (String × JVal)) (k : String) : Option JVal :=
  match fields.find? (fun p => p.1 == k) with
  | some p => some p.2
  | none => none

/-- `_get_first_match`: the first alias present on the object. -/
def getFirstMatch (fields : List (String × JVal)) (keys : List String) : Option JVal :=
  keys.findSome? (jGet fields)

/-- Python truthiness of a JSON value. -/
def jFalsy : JVal → Bool
  | .null => true
  | .bool b => !b
  | .num q => q == 0
  | .str s => s == ""
  | .arr xs => xs.isEmpty
  | .obj fs => fs.isEmpty

/-- Python `str()` of a JSON value (`None` prints as `"None"`; a JSON
number is an int when its denominator is 1, else a float). -/
def jvalPyStr : JVal → String
  | .null => "None"
  | .bool b => if b then "True" else "False"
  | .num q => if q.den = 1 then toString q.num else floatRepr q
  | .str s => s
  | .arr _ => "[...]"
  | .obj _ => "{...}"

/-- Python `float()` of a JSON value; lists, dicts and `None` raise. -/
def jFloat : JVal → Option ℚ
  | .num q => some q
  | .str s => pyFloatParse (strStrip s)
  | .bool b => some (if b then 1 else 0)
  | _ => none

/-- `CMSStandardJSONScraper.CHARGE_ARRAY_FIELDS`. -/
def CHARGE_ARRAY_FIELDS : List String :=
  ["standard_charge_information", "charges", "standard_charges", "items",
   "chargemaster", "charge_information"]

/-- `CODE_INFO_FIELDS`. -/
def CODE_INFO_FIELDS : List String :=
  ["code_information", "billing_code_information", "billing_codes", "codes",
   "code_info", "billing_code"]

/-- `CODE_VALUE_FIELDS`. -/
def CODE_VALUE_FIELDS : List String :=
  ["code", "billing_code", "code_value", "cpt", "hcpcs"]

/-- `CODE_TYPE_FIELDS`. -/
def CODE_TYPE_FIELDS : List String :=
  ["type", "code_type", "billing_code_type", "code_system"]

/-- `GROSS_FIELDS`. -/
def GROSS_FIELDS : List String :=
  ["gross_charge", "gross", "gross_charges", "standard_charge", "charge",
   "list_price", "chargemaster_price", "maximum"]

/-- `CASH_FIELDS`. -/
def CASH_FIELDS : List String :=
  ["discounted_cash", "discounted_cash_price", "cash", "cash_price",
   "self_pay", "self_pay_price", "minimum", "cash_discount"]

/-- `VALID_CODE_TYPES` (checked after `.upper().replace("-","")`, so the
literal `CPT-4` member is matched via its dash-free form). -/
def VALID_CODE_TYPES : List String := ["CPT", "CPT4", "HCPCS", "CPT-4", "HCPC"]

/-- The `code_information` list of an item: a lone dict is wrapped, a
non-list value is dropped. -/
def codeInfoList (item : List (String × JVal)) : List JVal :=
  match getFirstMatch item CODE_INFO_FIELDS with
  | some (.obj f) => [.obj f]
  | some (.arr xs) => xs
  | _ => []

/-- Normalize a code-type value and map it to a vocabulary, when valid. -/
def vocabOfCodeType (ct : JVal) : Option String :=
  let ctu := strReplace (strUpper (jvalPyStr ct)) "-" ""
  if ctu ∈ VALID_CODE_TYPES then
    some (if ctu = "HCPCS" ∨ ctu = "HCPC" then "hcpcs" else "cpt")
  else none

/-- The codes extracted from the `code_information` entries of one item. -/
def codesFromList (cis : List JVal) : List (String × String) :=
  cis.filterMap (fun ci =>
    match ci with
    | .obj f =>
      let code := (getFirstMatch f CODE_VALUE_FIELDS).getD (.str "")
      let ctype := (getFirstMatch f CODE_TYPE_FIELDS).getD (.str "")
      if jFalsy code then none
      else
        match vocabOfCodeType ctype with
        | some v => some (strStrip (jvalPyStr code), v)
        | none => none
    | _ => none)

/-- `_extract_codes`: the `code_information` route, falling back to a
direct `code` field on the item (default type `CPT`). -/
def extractCodes (item : List (String × JVal)) : List (String × String) :=
  let cs := codesFromList (codeInfoList item)
  if cs.isEmpty then
    match getFirstMatch item CODE_VALUE_FIELDS with
    | some dc =>
      if jFalsy dc then []
      else
        match vocabOfCodeType ((getFirstMatch item CODE_TYPE_FIELDS).getD (.str "CPT")) with
        | some v => [(strStrip (jvalPyStr dc), v)]
        | none => []
    | none => []
  else cs

/-- The `item[field] is not None` guard. -/
def jIsNull : JVal → Bool
  | .null => true
  | _ => false

/-- First alias whose value is present, non-null and float-parses. -/
def firstPrice (fields : List String) (o : List (String × JVal)) : Option ℚ :=
  fields.findSome? (fun f =>
    match jGet o f with
    | some v => if jIsNull v then none else jFloat v
    | none => none)

/-- `_extract_prices`: direct fields first, then the `standard_charges`
array fills whichever price is still missing. -/
def extractPrices (item : List (String × JVal)) : Option ℚ × Option ℚ :=
  let g0 := firstPrice GROSS_FIELDS item
  let c0 := firstPrice CASH_FIELDS item
  let std : List JVal :=
    match jGet item "standard_charges" with
    | some (.arr xs) => xs
    | _ => []
  std.foldl
    (fun gc sc =>
      match sc with
      | .obj f => (gc.1 <|> firstPrice GROSS_FIELDS f, gc.2 <|> firstPrice CASH_FIELDS f)
      | _ => gc)
    (g0, c0)

/-- One intermediate row emitted by the JSON extractor. -/
structure JRec where
  vocabulary_id : String
  concept_code : String
  gross : Option ℚ
  cash : Option ℚ
deriving DecidableEq

/-- The de-duplication key the extractor tracks in `codes_seen`. -/
def jrecKey (r : JRec) : String × String := (r.concept_code, r.vocabulary_id)

/-- The inner loop over one item's codes: emit a record per code whose
`(code, vocabulary)` key is unseen, threading `codes_seen`. -/
def emitCodes (g c : Option ℚ) (seen : List (String × String)) :
    List (String × String) → List JRec × List (String × String)
  | [] => ([], seen)
  | (code, vocab) :: rest =>
    if (code, vocab) ∈ seen then emitCodes g c seen rest
    else
      let r := emitCodes g c ((code, vocab) :: seen) rest
      ({ vocabulary_id := vocab, concept_code := code, gross := g, cash := c } :: r.1, r.2)

/-- The item loop of `parse_data`: non-dict items and items without codes
are skipped; `codes_seen` persists across items. -/
def parseItemsGo (seen : List (String × String)) : List JVal → List JRec
  | [] => []
  | .obj f :: rest =>
    let codes := extractCodes f
    if codes.isEmpty then parseItemsGo seen rest
    else
      let gc := extractPrices f
      let er := emitCodes gc.1 gc.2 seen codes
      er.1 ++ parseItemsGo er.2 rest
  | _ :: rest => parseItemsGo seen rest

/-- The record list `parse_data` builds from the charges array. -/
def parseItems (items : List JVal) : List JRec :=
  parseItemsGo [] items

/-- `list()` of a JSON value (non-sequences raise in Python and are
outside this model). -/
def jToList : JVal → List JVal
  | .arr xs => xs
  | _ => []

/-- `_find_charges_array`: a root list is the charges array when its first
dict looks like a charge item, else its first charge-array field is
unwrapped; a root dict is searched directly and then one level deep. -/
def findChargesArray : JVal → List JVal
  | .arr xs =>
    match xs with
    | .obj f :: _ =>
      if (CODE_INFO_FIELDS ++ ["code", "description"]).any (fun k => (jGet f k).isSome) then xs
      else
        match CHARGE_ARRAY_FIELDS.findSome? (jGet f) with
        | some v => jToList v
        | none => xs
    | _ => xs
  | .obj f =>
    match CHARGE_ARRAY_FIELDS.findSome? (fun k =>
        match jGet f k with
        | some (.arr ys) => some ys
        | _ => none) with
    | some ys => ys
    | none =>
      match CHARGE_ARRAY_FIELDS.findSome? (fun k =>
          match jGet f k with
          | some (.obj g) =>
            CHARGE_ARRAY_FIELDS.findSome? (fun k2 =>
              match jGet g k2 with
              | some (.arr ys) => some ys
              | _ => none)
          | _ => none) with
      | some ys => ys
      | none => []
  | _ => []

/-- `CMSStandardJSONScraper.parse_data` on decoded JSON: locate the
charges array and run the de-duplicating item loop (an empty array yields
an empty frame). -/
def parseData (v : JVal) : List JRec :=
  parseItems (findChargesArray v)

/-! ### Concrete inputs used by the counterexamples and witnesses -/

/-- A table whose code appears under both the `cpt` and `cpt4`
vocabularies, with one sub-cent cash price. -/
def C1exTable : Table :=
  { cols := ["vocabulary_id", "concept_code", "gross", "cash"]
    rows := [
      [("vocabulary_id", .str "cpt"), ("concept_code", .str "99213"),
       ("gross", .int 100), ("cash", .int 80)],
      [("vocabulary_id", .str "cpt4"), ("concept_code", .str "99213"),
       ("gross", .int 120), ("cash", .str "0.001")]] }

/-- The normalizer's output on `C1exTable`. -/
def C1exOut : List OutRow :=
  [{ cpt := "99213", rtype := "cash", price := 80 },
   { cpt := "99213", rtype := "cash", price := 0 },
   { cpt := "99213", rtype := "gross", price := 100 },
   { cpt := "99213", rtype := "gross", price := 120 }]

/-- A plain one-code table. -/
def C1wTable : Table :=
  { cols := ["vocabulary_id", "concept_code", "gross", "cash"]
    rows := [
      [("vocabulary_id", .str "cpt"), ("concept_code", .str "99213"),
       ("gross", .int 100), ("cash", .int 80)]] }

/-- The normalizer's output on `C1wTable`. -/
def C1wOut : List OutRow :=
  [{ cpt := "99213", rtype := "cash", price := 80 },
   { cpt := "99213", rtype := "gross", price := 100 }]

/-- The claim's duplicate-row example: `("99213", gross=100, cash=80)` and
`("99213", gross=120, cash=70)` under one vocabulary. -/
def C2exTable : Table :=
  { cols := ["vocabulary_id", "concept_code", "gross", "cash"]
    rows := [
      [("vocabulary_id", .str "cpt"), ("concept_code", .str "99213"),
       ("gross", .int 100), ("cash", .int 80)],
      [("vocabulary_id", .str "cpt"), ("concept_code", .str "99213"),
       ("gross", .int 120), ("cash", .int 70)]] }

/-- A CMS JSON document with two charge items carrying the same
`(code, type)` pair and different prices. -/
def C3exJSON : JVal :=
  .obj [("standard_charge_information", .arr [
    .obj [("code_information", .arr [.obj [("code", .str "99213"), ("type", .str "CPT")]]),
          ("standard_charges", .arr [.obj [("gross_charge", .num 100),
            ("discounted_cash", .num 80)]])],
    .obj [("code_information", .arr [.obj [("code", .str "99213"), ("type", .str "CPT")]]),
          ("standard_charges", .arr [.obj [("gross_charge", .num 120),
            ("discounted_cash", .num 70)]])]])]

/-- A one-row input table for the re-normalization counterexample. -/
def C4exTable : Table :=
  { cols := ["vocabulary_id", "concept_code", "gross", "cash"]
    rows := [
      [("vocabulary_id", .str "cpt"), ("concept_code", .str "99214"),
       ("gross", .int 150), ("cash", .int 120)]] }

/-- The normalizer's output rows on `C4exTable`. -/
def C4exOut : List OutRow :=
  [{ cpt := "99214", rtype := "cash", price := 120 },
   { cpt := "99214", rtype := "gross", price := 150 }]

/-- A well-formed table with no data rows. -/
def C7exTable : Table :=
  { cols := ["vocabulary_id", "concept_code", "gross", "cash"], rows := [] }

/-- A table whose only row is dropped by the vocabulary filter. -/
def C7wTable : Table :=
  { cols := ["vocabulary_id", "concept_code", "gross", "cash"]
    rows := [
      [("vocabulary_id", .str "drg"), ("concept_code", .str "99213"),
       ("gross", .int 100), ("cash", .int 80)]] }

/-- A hospital record carrying only an unsupported `.xml` price file. -/
def C9exRec : HospitalRec :=
  { scraperType := none, ccn := none,
    fileUrl := "https://example.org/prices.xml", idn := "", dtype := some .XML }

/-- A table missing three of the four required columns. -/
def C10wTable : Table :=
  { cols := ["concept_code"], rows := [] }

/-! ### Helper lemmas -/

theorem normalizeRows_none_eq (concepts : List String) (t : Table) :
    normalizeRows concepts none t =
      if (REQUIRED.filter (fun c => decide (c ∉ t.cols))).isEmpty then
        .ok (normPipeline concepts t.rows)
      else .error (.missingColumns (REQUIRED.filter (fun c => decide (c ∉ t.cols)))) := rfl

theorem mem_pdDedupGo {α : Type} [DecidableEq α] (l : List α) :
    ∀ (seen : List α) (a : α), a ∈ pdDedupGo seen l ↔ a ∈ l ∧ a ∉ seen := by
  induction l with
  | nil => intro seen a; simp [pdDedupGo]
  | cons x xs ih =>
    intro seen a
    by_cases hx : x ∈ seen
    · rw [pdDedupGo, if_pos hx, ih]
      constructor
      · rintro ⟨h1, h2⟩; exact ⟨.tail _ h1, h2⟩
      · rintro ⟨h1, h2⟩
        rcases List.mem_cons.mp h1 with rfl | h1
        · exact absurd hx h2
        · exact ⟨h1, h2⟩
    · rw [pdDedupGo, if_neg hx]
      constructor
      · intro h
        rcases List.mem_cons.mp h with rfl | h
        · exact ⟨List.mem_cons_self _ _, hx⟩
        · rcases (ih _ _).mp h with ⟨h1, h2⟩
          refine ⟨.tail _ h1, fun hc => h2 (.tail _ hc)⟩
      · rintro ⟨h1, h2⟩
        rcases List.mem_cons.mp h1 with rfl | h1
        · exact List.mem_cons_self _ _
        · by_cases hax : a = x
          · subst hax; exact List.mem_cons_self _ _
          · exact List.mem_cons_of_mem _ ((ih _ _).mpr
              ⟨h1, fun hc => (List.mem_cons.mp hc).elim hax h2⟩)

theorem mem_pdDedup {α : Type} [DecidableEq α] (l : List α) (a : α) :
    a ∈ pdDedup l ↔ a ∈ l := by
  rw [pdDedup, mem_pdDedupGo]; simp

theorem nodup_pdDedupGo {α : Type} [DecidableEq α] (l : List α) :
    ∀ seen : List α, (pdDedupGo seen l).Nodup := by
  induction l with
  | nil => intro seen; simp [pdDedupGo]
  | cons x xs ih =>
    intro seen
    by_cases hx : x ∈ seen
    · rw [pdDedupGo, if_pos hx]; exact ih seen
    · rw [pdDedupGo, if_neg hx]
      refine List.Nodup.cons (fun hc => ?_) (ih _)
      exact ((mem_pdDedupGo xs _ x).mp hc).2 (List.mem_cons_self _ _)

theorem nodup_pdDedup {α : Type} [DecidableEq α] (l : List α) : (pdDedup l).Nodup :=
  nodup_pdDedupGo l []

theorem pdDedupGo_sublist {α : Type} [DecidableEq α] (l : List α) :
    ∀ seen : List α, List.Sublist (pdDedupGo seen l) l := by
  induction l with
  | nil => intro seen; simp [pdDedupGo]
  | cons x xs ih =>
    intro seen
    by_cases hx : x ∈ seen
    · rw [pdDedupGo, if_pos hx]; exact (ih seen).cons x
    · rw [pdDedupGo, if_neg hx]; exact (ih _).cons₂ x

theorem pdDedup_sublist {α : Type} [DecidableEq α] (l : List α) :
    List.Sublist (pdDedup l) l :=
  pdDedupGo_sublist l []

theorem rhe_nonneg (q : ℚ) (h : 0 ≤ q) : 0 ≤ rhe q := by
  have hf : (0 : ℤ) ≤ ⌊q⌋ := Int.floor_nonneg.mpr h
  simp only [rhe]
  split_ifs <;> omega

theorem round2_nonneg (q : ℚ) (h : 0 < q) : 0 ≤ round2 q := by
  unfold round2
  have : (0 : ℤ) ≤ rhe (q * 100) := rhe_nonneg _ (by positivity)
  positivity

theorem waitExp_le_30 (n : ℕ) : waitExp n ≤ 30 := by
  unfold waitExp
  exact max_le (by norm_num) (min_le_right _ _)

theorem filter_map_nodup_eq {κ β : Type} (ks : List κ) (f : κ → β) (p : β → Bool) (k : κ)
    (hn : ks.Nodup) (hk : k ∈ ks) (hp : ∀ k2 ∈ ks, p (f k2) = true ↔ k2 = k) :
    (ks.map f).filter p = [f k] := by
  induction ks with
  | nil => cases hk
  | cons k1 rest ih =>
    rcases List.mem_cons.mp hk with heq | hk1
    · subst heq
      have hp1 : p (f k) = true := (hp k (List.mem_cons_self _ _)).mpr rfl
      have hrest : (rest.map f).filter p = [] := by
        rw [List.filter_eq_nil_iff]
        intro b hb
        rcases List.mem_map.mp hb with ⟨k2, hk2, hbe⟩
        subst hbe
        intro hpb
        have := (hp k2 (List.mem_cons_of_mem _ hk2)).mp hpb
        subst this
        exact (List.nodup_cons.mp hn).1 hk2
      simp [List.filter_cons, hp1, hrest]
    · have hne : k1 ≠ k := by
        rintro rfl
        exact (List.nodup_cons.mp hn).1 hk1
      have hp1 : p (f k1) = false := by
        rcases hb : p (f k1) with _ | _
        · rfl
        · exact absurd ((hp k1 (List.mem_cons_self _ _)).mp hb) hne
      have := ih (List.nodup_cons.mp hn).2 hk1
        (fun k2 hk2 => hp k2 (List.mem_cons_of_mem _ hk2))
      simp [List.filter_cons, hp1, this]

theorem mem_addCol_self (cols : List String) (c : String) : c ∈ addCol cols c := by
  unfold addCol
  split_ifs with h
  · exact h
  · exact List.mem_append_right _ (List.mem_singleton.mpr rfl)

theorem mem_addCol_of_mem (cols : List String) (c x : String) (h : x ∈ cols) :
    x ∈ addCol cols c := by
  unfold addCol
  split_ifs
  · exact h
  · exact List.mem_append_left _ h

/-! ### Claim theorems -/

/-- Claim C10: a table that lacks required columns (with the rename path
off) makes `normalize` raise `ValueError` naming exactly the missing
columns, so normalization never proceeds on a partial schema; the rename
path always supplies all four required columns. -/
theorem C10_missing_columns_theorem (concepts : List String) (t : Table) :
    (REQUIRED.filter (fun c => decide (c ∉ t.cols)) ≠ [] →
      normalizeRows concepts none t =
        .error (.missingColumns (REQUIRED.filter (fun c => decide (c ∉ t.cols))))) ∧
    (∀ g cc k t1, applyRename g cc k t = .ok t1 → ∀ col ∈ REQUIRED, col ∈ t1.cols) := by
  constructor
  · intro h
    rw [normalizeRows_none_eq, if_neg]
    intro hc
    exact h (List.isEmpty_iff.mp hc)
  · intro g cc k t1 h col hcol
    unfold applyRename at h
    split_ifs at h
    cases h
    simp only [REQUIRED] at hcol
    rcases List.mem_cons.mp hcol with rfl | hcol
    · exact mem_addCol_self _ _
    rcases List.mem_cons.mp hcol with rfl | hcol
    · exact mem_addCol_of_mem _ _ _ (mem_addCol_self _ _)
    rcases List.mem_cons.mp hcol with rfl | hcol
    · exact mem_addCol_of_mem _ _ _ (mem_addCol_of_mem _ _ _
        (mem_addCol_of_mem _ _ _ (mem_addCol_self _ _)))
    rcases List.mem_cons.mp hcol with rfl | hcol
    · exact mem_addCol_of_mem _ _ _ (mem_addCol_of_mem _ _ _ (mem_addCol_self _ _))
    · cases hcol

/-- Witness for C10 at a table having only `concept_code`. -/
theorem C10_missing_columns_witness :
    REQUIRED.filter (fun c => decide (c ∉ C10wTable.cols)) ≠ [] ∧
    normalizeRows [] none C10wTable =
      .error (.missingColumns ["vocabulary_id", "gross", "cash"]) := by
  have h := (C10_missing_columns_theorem [] C10wTable).1 (by with_unfolding_all decide)
  refine ⟨by with_unfolding_all decide, ?_⟩
  rw [h]
  with_unfolding_all decide

/-- Claim C7 (amended): a scrape whose data reaches the extractor but
yields zero normalized rows is reported as SUCCESS with
`records_scraped = 0` and no output file written; there is no `NoCharges`
failure kind in the code. -/
theorem C7_empty_normalized_theorem (concepts : List String) (t : Table)
    (h : normalizeRows concepts none t = .ok []) :
    scrapeFromParsed concepts t =
      ({ status := .success, records := some 0, errorType := none,
         errorMessage := none }, false) := by
  unfold scrapeFromParsed
  rw [h]
  rfl

/-- Witness for C7 at a table whose only row fails the vocabulary filter. -/
theorem C7_empty_normalized_witness :
    scrapeFromParsed [] C7wTable =
      ({ status := .success, records := some 0, errorType := none,
         errorMessage := none }, false) :=
  C7_empty_normalized_theorem [] C7wTable (by with_unfolding_all decide)

/-- Counterexample to C7 as stated: an input yielding zero normalized rows
is reported as SUCCESS (records 0, nothing written), not as a failure. -/
theorem C7_empty_normalized_counterexample :
    scrapeFromParsed [] C7exTable =
      ({ status := .success, records := some 0, errorType := none,
         errorMessage := none }, false) ∧
    (scrapeFromParsed [] C7exTable).1.status ≠ .failure := by
  with_unfolding_all decide

/-- Claim C8: a worker that exceeds the timeout is terminated with a
5-second grace join, then killed with a 2-second grace join, and reported
as a FAILURE with `error_type = TimeoutError`; a worker that exits without
queueing a result is reported as a crashed-worker failure; a queued result
is returned as-is. -/
theorem C8_timeout_theorem (timeout : ℕ) (b : ChildBehavior) :
    (b.finishesInTime = false →
      processWithTimeout timeout b =
        ([.join timeout, .terminate, .join 5] ++
            (if b.diesOnTerminate then [] else [.kill, .join 2]),
          failureResult "TimeoutError"
            ("Killed after " ++ toString timeout ++ "s timeout")) ∧
      (processWithTimeout timeout b).2.status = .failure ∧
      (processWithTimeout timeout b).2.errorType = some "TimeoutError") ∧
    (b.finishesInTime = true → b.queued = none →
      processWithTimeout timeout b =
        ([.join timeout], failureResult "RuntimeError" "Worker process crashed")) ∧
    (∀ r, b.finishesInTime = true → b.queued = some r →
      processWithTimeout timeout b = ([.join timeout], r)) := by
  refine ⟨fun h1 => ?_, fun h1 h2 => ?_, fun r h1 h2 => ?_⟩
  · unfold processWithTimeout
    rw [h1]
    exact ⟨rfl, rfl, rfl⟩
  · unfold processWithTimeout
    rw [h1, h2]
    rfl
  · unfold processWithTimeout
    rw [h1, h2]
    rfl

set_option maxRecDepth 4000 in
/-- Witness for C8: a hung child that responds to `terminate`. -/
theorem C8_timeout_witness :
    processWithTimeout 1200
        { finishesInTime := false, queued := none, diesOnTerminate := true } =
      ([.join 1200, .terminate, .join 5],
        failureResult "TimeoutError" "Killed after 1200s timeout") := by
  have h := (C8_timeout_theorem 1200
    { finishesInTime := false, queued := none, diesOnTerminate := true }).1 rfl
  rw [h.1]
  with_unfolding_all rfl

/-- Claim C6 (amended): the header-skip count is 0 for pipe-delimited
input, 0 when the first line mentions `service_code` or `hcpcs`, 0 when it
lacks `hospital_name` but mentions `description`, and 2 in every other
case (the CMS-metadata default). -/
theorem C6_skiprows_theorem (delim : Char) (rawData : String) :
    skipCount delim rawData =
      amendedSkipCount delim
        (if rawData = "" then "" else strLower (firstLineOf rawData)) := rfl

/-- Counterexample to C6 as stated: a comma-delimited file whose first
line has none of the marker words is skipped 2 rows, where the claim says
0. -/
theorem C6_skiprows_counterexample :
    skipCount ',' "cola,colb\nx,y" = 2 ∧
    claimSkipCount ',' (strLower (firstLineOf "cola,colb\nx,y")) = 0 ∧
    skipCount ',' "cola,colb\nx,y" ≠
      claimSkipCount ',' (strLower (firstLineOf "cola,colb\nx,y")) := by
  with_unfolding_all decide

/-- Claim C5: `RetryHTTPClient.get` retries only after transient outcomes
(429/5xx statuses, connection errors, timeouts), makes at most 3 attempts,
waits `wait_exponential(multiplier=2, min=1, max=30)` (so every delay is
capped at 30 s), and a 4xx status other than 429 raises
`PermanentHTTPError` on the first attempt with no retry. -/
theorem C5_retry_policy_theorem (outcomes : ℕ → Attempt) :
    (getRun outcomes).attempts ≤ 3 ∧
    (∀ i, 1 ≤ i → i < (getRun outcomes).attempts →
      isRetryable (makeRequest (outcomes i)) = true) ∧
    (∀ c, 400 ≤ c → c < 500 → c ≠ 429 → outcomes 1 = .status c →
      getRun outcomes = { result := .permanent c, attempts := 1, waits := [] }) ∧
    (getRun outcomes).waits =
      (List.range ((getRun outcomes).attempts - 1)).map (fun i => waitExp (i + 1)) ∧
    (∀ w ∈ (getRun outcomes).waits, w ≤ 30) := by
  have hperm : ∀ c : ℕ, 400 ≤ c → c < 500 → c ≠ 429 →
      makeRequest (.status c) = .permanent c := by
    intro c h1 h2 h3
    have hsr : shouldRetry c = false := by
      simp only [shouldRetry, Bool.or_eq_false_iff, Bool.and_eq_false_iff,
        beq_eq_false_iff_ne, ne_eq, decide_eq_false_iff_not, not_le, not_lt]
      exact ⟨h3, Or.inl (by omega)⟩
    simp only [makeRequest, hsr]
    rw [if_neg (show ¬ c = 200 by omega)]
    rfl
  by_cases h1 : isRetryable (makeRequest (outcomes 1)) = true
  · by_cases h2 : isRetryable (makeRequest (outcomes 2)) = true
    · have hrun : getRun outcomes =
          { result := makeRequest (outcomes 3), attempts := 3,
            waits := [waitExp 1, waitExp 2] } := by
        unfold getRun
        rw [if_pos h1, if_pos h2]
      rw [hrun]
      dsimp only
      refine ⟨by omega, fun i hi1 hi2 => ?_, fun c hc1 hc2 hc3 hc4 => ?_, by rfl, ?_⟩
      · have : i = 1 ∨ i = 2 := by omega
        rcases this with rfl | rfl
        · exact h1
        · exact h2
      · rw [hc4, hperm c hc1 hc2 hc3] at h1
        cases h1
      · intro w hw
        rcases List.mem_cons.mp hw with rfl | hw
        · exact waitExp_le_30 1
        rcases List.mem_cons.mp hw with rfl | hw
        · exact waitExp_le_30 2
        · cases hw
    · have hrun : getRun outcomes =
          { result := makeRequest (outcomes 2), attempts := 2,
            waits := [waitExp 1] } := by
        unfold getRun
        rw [if_pos h1, if_neg h2]
      rw [hrun]
      dsimp only
      refine ⟨by omega, fun i hi1 hi2 => ?_, fun c hc1 hc2 hc3 hc4 => ?_, by rfl, ?_⟩
      · have : i = 1 := by omega
        subst this
        exact h1
      · rw [hc4, hperm c hc1 hc2 hc3] at h1
        cases h1
      · intro w hw
        rcases List.mem_cons.mp hw with rfl | hw
        · exact waitExp_le_30 1
        · cases hw
  · have hrun : getRun outcomes =
        { result := makeRequest (outcomes 1), attempts := 1, waits := [] } := by
      unfold getRun
      rw [if_neg h1]
    rw [hrun]
    dsimp only
    refine ⟨by omega, fun i hi1 hi2 => by omega, fun c hc1 hc2 hc3 hc4 => ?_, by rfl,
      fun w hw => by cases hw⟩
    rw [hc4, hperm c hc1 hc2 hc3]

/-- Witness for C5: a constant 404 is permanent after one attempt with no
waits. -/
theorem C5_retry_policy_witness :
    getRun (fun _ => .status 404) =
      { result := .permanent 404, attempts := 1, waits := [] } :=
  (C5_retry_policy_theorem (fun _ => .status 404)).2.2.1 404 (by omega) (by omega)
    (by omega) rfl

/-- Claim C9: extractor selection is the first match of (explicit name,
CCN override, case-insensitive URL pattern, IDN label, format mapping) in
that fixed order; an `.xml` URL maps to the XML format, which has no
extractor, so the lookup returns none and the worker records the hospital
as skipped rather than failed. -/
theorem C9_registry_dispatch_theorem (r : HospitalRec) (url : String) :
    getScraperClass r = specSelectExtractor r ∧
    (strContains (strLower url) ".json" = false →
     strContains (strLower url) ".csv" = false →
     strContains (strLower url) ".xlsx" = false →
     strContains (strLower url) ".xls" = false →
     strContains (strLower url) ".xml" = true →
      detectFormatFromUrl url = some .XML) ∧
    (r.scraperType = none → r.ccn = none → urlProviderScraper r.fileUrl = none →
      r.idn = "" → r.dtype = some .XML → getScraperClass r = none) ∧
    (getScraperClass r = none →
      workerDispatch r = .inl (skippedResult "No scraper for format") ∧
      (skippedResult "No scraper for format").status = .skipped ∧
      ScrapeStatusM.skipped ≠ ScrapeStatusM.failure) := by
  refine ⟨?_, ?_, ?_, ?_⟩
  · unfold getScraperClass specSelectExtractor dispatchRules
    cases ha : r.scraperType.bind (lookupTable SCRAPER_TYPES) with
    | some e => simp [List.findSome?_cons, ha]
    | none =>
      cases hb : r.ccn.bind (lookupTable CCN_SCRAPERS) with
      | some e => simp [List.findSome?_cons, ha, hb]
      | none =>
        cases hc : urlProviderScraper r.fileUrl with
        | some e => simp [List.findSome?_cons, ha, hb, hc]
        | none =>
          cases hd : (if r.idn ≠ "" then lookupTable IDN_SCRAPERS r.idn else none) with
          | some e => simp [List.findSome?_cons, ha, hb, hc, hd]
          | none =>
            simp only [List.findSome?_cons, ha, hb, hc, hd, id]
            cases r.dtype.bind (lookupTable FORMAT_SCRAPERS) <;> rfl
  · intro h1 h2 h3 h4 h5
    simp only [detectFormatFromUrl]
    simp [h1, h2, h3, h4, h5]
  · intro h1 h2 h3 h4 h5
    simp [getScraperClass, h1, h2, h3, h4, h5, lookupTable, FORMAT_SCRAPERS, List.find?]
  · intro h
    unfold workerDispatch
    rw [h]
    exact ⟨rfl, rfl, by decide⟩

/-- Witness for C9 at a hospital record with an `.xml` price file. -/
theorem C9_registry_dispatch_witness :
    detectFormatFromUrl "https://example.org/prices.xml" = some .XML ∧
    getScraperClass C9exRec = none ∧
    workerDispatch C9exRec = .inl (skippedResult "No scraper for format") := by
  have h := C9_registry_dispatch_theorem C9exRec "https://example.org/prices.xml"
  have hxml := h.2.1 (by with_unfolding_all decide) (by with_unfolding_all decide)
    (by with_unfolding_all decide) (by with_unfolding_all decide)
    (by with_unfolding_all decide)
  have hnone := h.2.2.1 rfl rfl (by with_unfolding_all decide) rfl rfl
  exact ⟨hxml, hnone, (h.2.2.2 hnone).1⟩

/-- Claim C2: rows sharing a `(vocabulary_id, concept_code)` key collapse
to a single group whose gross and cash are the element-wise maxima of the
matching rows; in particular the claim's two-row example normalizes to
`gross=120, cash=80`. -/
theorem C2_groupby_max_theorem (concepts : List String) (t : Table) (v c : String) :
    ((∃ r ∈ filteredOfRows concepts t.rows, r.vocab = v ∧ r.code = c) →
      (groupedOf (filteredOfRows concepts t.rows)).filter
          (fun g => decide (g.vocab = v ∧ g.code = c)) =
        [{ vocab := v, code := c,
           cash := maxOptList (((filteredOfRows concepts t.rows).filter
             (fun r => decide ((r.vocab, r.code) = (v, c)))).map (fun r => r.cash)),
           gross := maxOptList (((filteredOfRows concepts t.rows).filter
             (fun r => decide ((r.vocab, r.code) = (v, c)))).map (fun r => r.gross)) }]) ∧
    normalizeRows [] none C2exTable =
      .ok [{ cpt := "99213", rtype := "cash", price := 80 },
           { cpt := "99213", rtype := "gross", price := 120 }] := by
  constructor
  · rintro ⟨r, hr, hv, hc⟩
    have hkmem : (v, c) ∈ groupKeysOf (filteredOfRows concepts t.rows) := by
      unfold groupKeysOf
      rw [(List.perm_insertionSort pairLe _).mem_iff, mem_pdDedup]
      exact List.mem_map.mpr ⟨r, hr, by rw [hv, hc]⟩
    have hnodup : (groupKeysOf (filteredOfRows concepts t.rows)).Nodup := by
      unfold groupKeysOf
      exact ((List.perm_insertionSort pairLe _).nodup_iff).mpr (nodup_pdDedup _)
    have hmain := filter_map_nodup_eq (groupKeysOf (filteredOfRows concepts t.rows))
      (mkGroup (filteredOfRows concepts t.rows))
      (fun g => decide (g.vocab = v ∧ g.code = c)) (v, c) hnodup hkmem
      (fun k2 _ => by
        constructor
        · intro hpk
          have hp2 := of_decide_eq_true hpk
          exact Prod.ext hp2.1 hp2.2
        · rintro rfl
          exact decide_eq_true ⟨rfl, rfl⟩)
    unfold groupedOf
    rw [hmain]
    rfl
  · with_unfolding_all decide

/-- Witness for C2 at the claim's example table. -/
theorem C2_groupby_max_witness :
    (groupedOf (filteredOfRows [] C2exTable.rows)).filter
        (fun g => decide (g.vocab = "cpt" ∧ g.code = "99213")) =
      [{ vocab := "cpt", code := "99213",
         cash := maxOptList (((filteredOfRows [] C2exTable.rows).filter
           (fun r => decide ((r.vocab, r.code) = ("cpt", "99213")))).map (fun r => r.cash)),
         gross := maxOptList (((filteredOfRows [] C2exTable.rows).filter
           (fun r => decide ((r.vocab, r.code) = ("cpt", "99213")))).map (fun r => r.gross)) }] :=
  (C2_groupby_max_theorem [] C2exTable "cpt" "99213").1 (by with_unfolding_all decide)

/-- Claim C4 (amended): re-running the normalizer on its own output is not
a no-op but a `ValueError`: the output schema `(cpt, type, price)` lacks
all four required input columns. -/
theorem C4_renormalize_theorem (concepts : List String) (t : Table) (rs : List OutRow)
    (h : normalizeRows concepts none t = .ok rs) :
    normalizeDF concepts none (outTable rs) = .error (.missingColumns REQUIRED) := by
  unfold normalizeDF
  rw [normalizeRows_none_eq]
  have hf : REQUIRED.filter (fun c => decide (c ∉ (outTable rs).cols)) = REQUIRED := by
    with_unfolding_all rfl
  rw [hf]
  rfl

/-- Counterexample to C4 as stated: normalizing a normalizer output errors
rather than returning it unchanged. -/
theorem C4_renormalize_counterexample :
    normalizeDF [] none C4exTable = .ok (outTable C4exOut) ∧
    normalizeDF [] none (outTable C4exOut) ≠ .ok (outTable C4exOut) := by
  with_unfolding_all decide

/-- Witness for C4 at the concrete one-row table. -/
theorem C4_renormalize_witness :
    normalizeDF [] none (outTable C4exOut) = .error (.missingColumns REQUIRED) :=
  C4_renormalize_theorem [] C4exTable C4exOut (by with_unfolding_all decide)

theorem emitCodes_spec (g c : Option ℚ) (codes : List (String × String)) :
    ∀ seen,
      ((emitCodes g c seen codes).1.map jrecKey).Nodup ∧
      (∀ k ∈ (emitCodes g c seen codes).1.map jrecKey, k ∉ seen) ∧
      (∀ k, k ∈ (emitCodes g c seen codes).2 ↔
        (k ∈ seen ∨ k ∈ (emitCodes g c seen codes).1.map jrecKey)) := by
  induction codes with
  | nil => intro seen; simp [emitCodes]
  | cons p rest ih =>
    intro seen
    obtain ⟨code, vocab⟩ := p
    by_cases hm : (code, vocab) ∈ seen
    · simp only [emitCodes, if_pos hm]
      exact ih seen
    · simp only [emitCodes, if_neg hm]
      obtain ⟨ih1, ih2, ih3⟩ := ih ((code, vocab) :: seen)
      refine ⟨?_, ?_, ?_⟩
      · rw [List.map_cons]
        refine List.Nodup.cons (fun hc => ?_) ih1
        exact (ih2 _ hc) (List.mem_cons_self _ _)
      · rw [List.map_cons]
        intro k hk
        rcases List.mem_cons.mp hk with heq | hk
        · subst heq; exact hm
        · intro hks
          exact ih2 k hk (List.mem_cons_of_mem _ hks)
      · intro k
        rw [List.map_cons, ih3 k]
        constructor
        · rintro (hk | hk)
          · rcases List.mem_cons.mp hk with heq | hk
            · subst heq; exact Or.inr (List.mem_cons_self _ _)
            · exact Or.inl hk
          · exact Or.inr (List.mem_cons_of_mem _ hk)
        · rintro (hk | hk)
          · exact Or.inl (List.mem_cons_of_mem _ hk)
          · rcases List.mem_cons.mp hk with heq | hk
            · subst heq; exact Or.inl (List.mem_cons_self _ _)
            · exact Or.inr hk

theorem parseItemsGo_spec (items : List JVal) :
    ∀ seen,
      ((parseItemsGo seen items).map jrecKey).Nodup ∧
      ∀ k ∈ (parseItemsGo seen items).map jrecKey, k ∉ seen := by
  induction items with
  | nil => intro seen; simp [parseItemsGo]
  | cons it rest ih =>
    intro seen
    cases it with
    | obj f =>
      simp only [parseItemsGo]
      by_cases he : (extractCodes f).isEmpty
      · rw [if_pos he]; exact ih seen
      · rw [if_neg he]
        obtain ⟨e1, e2, e3⟩ := emitCodes_spec (extractPrices f).1 (extractPrices f).2
          (extractCodes f) seen
        obtain ⟨r1, r2⟩ := ih (emitCodes (extractPrices f).1 (extractPrices f).2
          seen (extractCodes f)).2
        rw [List.map_append]
        refine ⟨List.Nodup.append e1 r1 ?_, ?_⟩
        · intro k hk1 hk2
          exact r2 k hk2 ((e3 k).mpr (Or.inr hk1))
        · intro k hk
          rcases List.mem_append.mp hk with hk | hk
          · exact e2 k hk
          · intro hks
            exact r2 k hk ((e3 k).mpr (Or.inl hks))
    | null => simp only [parseItemsGo]; exact ih seen
    | bool b => simp only [parseItemsGo]; exact ih seen
    | num q => simp only [parseItemsGo]; exact ih seen
    | str s => simp only [parseItemsGo]; exact ih seen
    | arr xs => simp only [parseItemsGo]; exact ih seen

/-- Claim C3 (amended): for every CMS JSON input, `parse_data` emits at
most one intermediate row per `(code, vocabulary)` pair — the first
occurrence wins and later duplicates are dropped at extraction (the
normalizer de-duplicates again downstream). -/
theorem C3_json_dedup_theorem (v : JVal) :
    ((parseData v).map jrecKey).Nodup := by
  unfold parseData parseItems
  exact (parseItemsGo_spec (findChargesArray v) []).1

/-- Counterexample to C3 as stated: two items with the same
`("99213", CPT)` pair yield one row (the first item's prices), not one row
per occurrence. -/
theorem C3_json_dedup_counterexample :
    parseData C3exJSON =
      [{ vocabulary_id := "cpt", concept_code := "99213",
         gross := some 100, cash := some 80 }] ∧
    (parseData C3exJSON).length ≠ 2 := by
  with_unfolding_all decide

theorem mem_groupKeysOf (f : List CRow) (k : String × String) :
    k ∈ groupKeysOf f ↔ k ∈ f.map (fun r => (r.vocab, r.code)) := by
  unfold groupKeysOf
  rw [(List.perm_insertionSort pairLe _).mem_iff, mem_pdDedup]

theorem nodup_groupKeysOf (f : List CRow) : (groupKeysOf f).Nodup := by
  unfold groupKeysOf
  exact ((List.perm_insertionSort pairLe _).nodup_iff).mpr (nodup_pdDedup _)

theorem mem_normPipeline (concepts : List String) (rows : List Row) (r : OutRow)
    (hr : r ∈ normPipeline concepts rows) :
    isValidCPT r.cpt = true ∧ (r.rtype = "cash" ∨ r.rtype = "gross") ∧
    0 ≤ r.price ∧ ∃ n : ℤ, r.price = (n : ℚ) / 100 := by
  unfold normPipeline at hr
  have h1 := List.mem_filter.mp hr
  have hvalid := h1.2
  have h2 : r ∈ roundedRows concepts rows :=
    (List.perm_insertionSort rowLe _).mem_iff.mp h1.1
  unfold roundedRows at h2
  rcases List.mem_map.mp h2 with ⟨m, hm, hme⟩
  unfold positiveRows at hm
  have h3 := List.mem_filter.mp hm
  have hpos : 0 < m.price.getD 0 := of_decide_eq_true h3.2
  have h4 := List.mem_filter.mp h3.1
  have hmelt : m ∈ meltedOf (groupedOf (filteredOfRows concepts rows)) := by
    have hdd := h4.1
    unfold dedupedRows at hdd
    exact (mem_pdDedup _ _).mp hdd
  have htype : m.mtype = "cash" ∨ m.mtype = "gross" := by
    unfold meltedOf at hmelt
    rcases List.mem_append.mp hmelt with hm1 | hm1
    · rcases List.mem_map.mp hm1 with ⟨g, _, hge⟩
      left; rw [← hge]
    · rcases List.mem_map.mp hm1 with ⟨g, _, hge⟩
      right; rw [← hge]
  subst hme
  exact ⟨hvalid, htype, round2_nonneg _ hpos, ⟨rhe (m.price.getD 0 * 100), rfl⟩⟩

theorem sorted_normPipeline (concepts : List String) (rows : List Row) :
    List.Sorted rowLe (normPipeline concepts rows) := by
  unfold normPipeline
  exact (List.sorted_insertionSort rowLe _).sublist (List.filter_sublist _)

theorem nodup_keys_normPipeline (concepts : List String) (rows : List Row)
    (hv : ∀ r1 ∈ filteredOfRows concepts rows, ∀ r2 ∈ filteredOfRows concepts rows,
      r1.vocab = r2.vocab) :
    ((normPipeline concepts rows).map outKey).Nodup := by
  have hksnd : ∀ k1 ∈ groupKeysOf (filteredOfRows concepts rows),
      ∀ k2 ∈ groupKeysOf (filteredOfRows concepts rows), k1.1 = k2.1 := by
    intro k1 h1 k2 h2
    rcases List.mem_map.mp ((mem_groupKeysOf _ _).mp h1) with ⟨r1, hr1, he1⟩
    rcases List.mem_map.mp ((mem_groupKeysOf _ _).mp h2) with ⟨r2, hr2, he2⟩
    rw [← he1, ← he2]
    exact hv r1 hr1 r2 hr2
  have hmk : (meltedOf (groupedOf (filteredOfRows concepts rows))).map
        (fun m => (m.cpt, m.mtype)) =
      (groupKeysOf (filteredOfRows concepts rows)).map (fun k => (k.2, "cash")) ++
        (groupKeysOf (filteredOfRows concepts rows)).map (fun k => (k.2, "gross")) := by
    unfold meltedOf groupedOf
    rw [List.map_append, List.map_map, List.map_map, List.map_map, List.map_map]
    rfl
  have hmknd : ((meltedOf (groupedOf (filteredOfRows concepts rows))).map
      (fun m => (m.cpt, m.mtype))).Nodup := by
    rw [hmk]
    refine List.Nodup.append ?_ ?_ ?_
    · refine List.Nodup.map_on ?_ (nodup_groupKeysOf _)
      intro x hx y hy hxy
      exact Prod.ext (hksnd x hx y hy) (congrArg Prod.fst hxy)
    · refine List.Nodup.map_on ?_ (nodup_groupKeysOf _)
      intro x hx y hy hxy
      exact Prod.ext (hksnd x hx y hy) (congrArg Prod.fst hxy)
    · intro a ha hb
      rcases List.mem_map.mp ha with ⟨k1, _, he1⟩
      rcases List.mem_map.mp hb with ⟨k2, _, he2⟩
      have hcg : ("cash" : String) = "gross" := by
        have c1 : a.2 = "cash" := by rw [← he1]
        have c2 : a.2 = "gross" := by rw [← he2]
        rw [← c1, c2]
      exact absurd hcg (by decide)
  have n1 : ((dedupedRows concepts rows).map (fun m => (m.cpt, m.mtype))).Nodup := by
    refine hmknd.sublist ?_
    exact (pdDedup_sublist _).map _
  have n2 : ((positiveRows concepts rows).map (fun m => (m.cpt, m.mtype))).Nodup := by
    refine n1.sublist ?_
    exact ((List.filter_sublist _).trans (List.filter_sublist _)).map _
  have hre : (roundedRows concepts rows).map outKey =
      (positiveRows concepts rows).map (fun m => (m.cpt, m.mtype)) := by
    unfold roundedRows
    rw [List.map_map]
    rfl
  have n3 : ((roundedRows concepts rows).map outKey).Nodup := by
    rw [hre]; exact n2
  have n4 : ((List.insertionSort rowLe (roundedRows concepts rows)).map outKey).Nodup :=
    (((List.perm_insertionSort rowLe _).map outKey).nodup_iff).mpr n3
  unfold normPipeline
  exact n4.sublist ((List.filter_sublist _).map _)

/-- Claim C1 (amended): every normalizer output row has a five-character
`[0-9A-Z]` code, a gross/cash type, a price that is nonnegative (positive
before rounding, but `.round(2)` can round a sub-cent price to 0) with at
most two decimal places, and the rows are sorted ascending by
`(cpt, type)`; the at-most-one-row-per-`(cpt, type)` bound holds whenever
all surviving input rows carry one lowercased vocabulary, while a code
listed under two vocabularies (e.g. `cpt` and `cpt4`) yields duplicate
keys. -/
theorem C1_output_invariants_theorem (concepts : List String) (t : Table)
    (rs : List OutRow) (h : normalizeRows concepts none t = .ok rs) :
    (∀ r ∈ rs, isValidCPT r.cpt = true ∧ (r.rtype = "cash" ∨ r.rtype = "gross") ∧
      0 ≤ r.price ∧ ∃ n : ℤ, r.price = (n : ℚ) / 100) ∧
    List.Sorted rowLe rs ∧
    ((∀ r1 ∈ filteredOfRows concepts t.rows, ∀ r2 ∈ filteredOfRows concepts t.rows,
        r1.vocab = r2.vocab) → (rs.map outKey).Nodup) := by
  rw [normalizeRows_none_eq] at h
  split at h
  · injection h with h2
    subst h2
    exact ⟨fun r hr => mem_normPipeline concepts t.rows r hr,
      sorted_normPipeline concepts t.rows,
      fun hv => nodup_keys_normPipeline concepts t.rows hv⟩
  · simp at h

/-- Witness for C1 at a one-row table. -/
theorem C1_output_invariants_witness :
    (∀ r ∈ C1wOut, isValidCPT r.cpt = true ∧ (r.rtype = "cash" ∨ r.rtype = "gross") ∧
      0 ≤ r.price ∧ ∃ n : ℤ, r.price = (n : ℚ) / 100) ∧
    List.Sorted rowLe C1wOut ∧ (C1wOut.map outKey).Nodup := by
  have h := C1_output_invariants_theorem [] C1wTable C1wOut (by with_unfolding_all decide)
  exact ⟨h.1, h.2.1, h.2.2 (by with_unfolding_all decide)⟩

/-- Counterexample to C1 as stated: one code under the `cpt` and `cpt4`
vocabularies yields two rows per `(cpt, type)` pair, and a positive
sub-cent price rounds to an output price of 0. -/
theorem C1_output_invariants_counterexample :
    normalizeRows [] none C1exTable = .ok C1exOut ∧
    ¬ (∀ r ∈ C1exOut, 0 < r.price) ∧
    ¬ (C1exOut.map outKey).Nodup := by
  with_unfolding_all decide
